import Mathlib

/-!
Shallow embedding of the `mc` memcached text-protocol package
(request parser `ReadRequest`, response formatter `Response.String`,
per-connection dispatch step of `Server.handleConn`, and `Server.Stop`).

The client byte stream is modelled as a finite `List Char` (one `Char`
per byte; all protocol traffic is ASCII).  Running out of bytes models
EOF on the connection.  Errors are split the way the Go code splits
them: `protocolError` is the `mc.Error` type of the package (`NewError`),
`ioError` is any error propagated from the reader (`io.EOF`,
`io.ErrUnexpectedEOF`, ...), and `numErr` is a raw `strconv` error
returned verbatim (the `cas` byte-count branch does this).  A Go
runtime fault (panic) is a separate `fault` outcome.
-/

namespace mc

/-- Errors a parse can end with, separated the way `Server.handleConn`
separates them with its `err.(Error)` type-switch. -/
inductive PErr where
  | protocolError (desc : String)
  | ioError (desc : String)
  | numErr (desc : String)
  deriving Repr, DecidableEq

/-- Result of running a piece of Go code: a value, a returned error, or
a runtime fault (panic). -/
inductive Outcome (α : Type) where
  | ok (a : α)
  | err (e : PErr)
  | fault (msg : String)
  deriving Repr, DecidableEq

/-- Constant `RealtimeMaxDelta = 60 * 60 * 24 * 30` (30 days in seconds). -/
def RealtimeMaxDelta : Int := 60 * 60 * 24 * 30

/-- The `Request` struct. `Data` is the raw payload, one `Char` per byte. -/
structure Request where
  Command : String
  Key : String
  Keys : List String
  Flags : String
  Exptime : Int
  Data : List Char
  Value : Int
  Cas : String
  Noreply : Bool
  deriving Repr, DecidableEq

/-- The Go zero value of the `Request` struct. -/
def Request.zero : Request :=
  ⟨"", "", [], "", 0, [], 0, "", false⟩

/-- Rendering of Go `%q` on a plain token: surrounding double quotes. -/
def goQuote (s : String) : String :=
  "\"" ++ s ++ "\""

/-- Whitespace per Go `unicode.IsSpace` restricted to Latin-1 (the
protocol is ASCII, so the higher code points never occur here). -/
def goIsSpace (c : Char) : Bool :=
  c = ' ' || c = '\t' || c = '\n' || c = '\x0b' || c = '\x0c' || c = '\r' ||
  c = '\x85' || c = '\xa0'

/-- Helper for `fields`: accumulates the current token (reversed). -/
def fieldsAux : List Char → List Char → List String
  | [], acc => if acc.isEmpty then [] else [String.mk acc.reverse]
  | c :: rest, acc =>
    if goIsSpace c then
      if acc.isEmpty then fieldsAux rest []
      else String.mk acc.reverse :: fieldsAux rest []
    else fieldsAux rest (c :: acc)

/-- Model of `strings.Fields`: split into maximal runs of non-whitespace. -/
def fields (l : List Char) : List String :=
  fieldsAux l []

/-- Split a stream at its first `'\n'`; `none` if there is none. -/
def splitFirstNewline : List Char → Option (List Char × List Char)
  | [] => none
  | c :: rest =>
    if c = '\n' then some ([], rest)
    else
      match splitFirstNewline rest with
      | some (l, r) => some (c :: l, r)
      | none => none

/-- Drop one trailing `'\r'` (the `"\r\n"` case of `bufio.ReadLine`). -/
def dropTrailingCR (l : List Char) : List Char :=
  match l.getLast? with
  | some '\r' => l.dropLast
  | _ => l

/-- Model of `bufio.Reader.ReadLine` on the modelled stream: return one line
without its terminator.  At EOF with no data buffered it returns
`io.EOF`; a final unterminated line is returned as-is. -/
def readLine (s : List Char) : Except PErr (List Char × List Char) :=
  match splitFirstNewline s with
  | some (l, r) => .ok (dropTrailingCR l, r)
  | none => if s.isEmpty then .error (.ioError "EOF") else .ok (s, [])

/-- Model of `io.ReadFull` into a buffer of length `n`: all `n` bytes or an
I/O error (`io.EOF` when nothing was available, else
`io.ErrUnexpectedEOF`). -/
def readFull (s : List Char) (n : Nat) : Except PErr (List Char × List Char) :=
  if s.length < n then
    .error (.ioError (if s.isEmpty then "EOF" else "unexpected EOF"))
  else .ok (s.take n, s.drop n)

/-- Model of `bufio.Reader.ReadByte`. -/
def readByte : List Char → Except PErr (Char × List Char)
  | [] => .error (.ioError "EOF")
  | c :: rest => .ok (c, rest)

/-- Decimal digit value. -/
def digitVal (c : Char) : Option Nat :=
  if '0' ≤ c && c ≤ '9' then some (c.toNat - '0'.toNat) else none

/-- Accumulate decimal digits; `none` on the first non-digit. -/
def parseDigitsAux : List Char → Nat → Option Nat
  | [], acc => some acc
  | c :: rest, acc =>
    match digitVal c with
    | some d => parseDigitsAux rest (acc * 10 + d)
    | none => none

/-- Value of a non-empty all-digit string. -/
def parseDigits : List Char → Option Nat
  | [] => none
  | l => parseDigitsAux l 0

/-- Core of `strconv.ParseInt(s, 10, 64)` (and of `strconv.Atoi` on a
64-bit platform): optional sign, decimal digits, 64-bit range check.
The error text mirrors the Go texts `parsing ...: invalid syntax` and `value out
of range`; the calling code only tests the error against nil. -/
def parseIntCore (s : String) : Except String Int :=
  match s.data with
  | [] => .error ("parsing " ++ goQuote s ++ ": invalid syntax")
  | c :: rest =>
    let p : Bool × List Char :=
      if c = '+' then (false, rest)
      else if c = '-' then (true, rest)
      else (false, c :: rest)
    match parseDigits p.2 with
    | none => .error ("parsing " ++ goQuote s ++ ": invalid syntax")
    | some m =>
      let v : Int := if p.1 then -(m : Int) else (m : Int)
      if v < -(2 ^ 63) || (2 ^ 63 - 1 : Int) < v then
        .error ("parsing " ++ goQuote s ++ ": value out of range")
      else .ok v

/-- Model of `strconv.ParseInt(s, 10, 64)`. -/
def goParseInt64 (s : String) : Except String Int :=
  match parseIntCore s with
  | .ok v => .ok v
  | .error e => .error ("strconv.ParseInt: " ++ e)

/-- Model of `strconv.Atoi(s)` (64-bit platform). -/
def goAtoi (s : String) : Except String Int :=
  match parseIntCore s with
  | .ok v => .ok v
  | .error e => .error ("strconv.Atoi: " ++ e)

/-- The exptime rewrite the parser applies after
`req.Exptime, err = strconv.ParseInt(...)` in the storage, `cas` and
`touch` branches:
`if req.Exptime > 0 { if req.Exptime <= RealtimeMaxDelta {
  req.Exptime = time.Now().Unix()/1e9 + req.Exptime } }`.
`now` is `time.Now().Unix()` (seconds since epoch); the division by
1e9 is transcribed as the source has it. -/
def goNormalize (now e : Int) : Int :=
  if e > 0 then
    (if e ≤ RealtimeMaxDelta then Int.tdiv now 1000000000 + e else e)
  else e

/-- Head token equals the literal `"noreply"` (the
`len(arr) > k && arr[k] == "noreply"` pattern). -/
def headIsNoreply : List String → Bool
  | t :: _ => t = "noreply"
  | [] => false

/-- The `"set", "add", "replace", "append", "prepend"` case of
`ReadRequest`.  `cmdName` is `arr[0]`, `args` is `arr[1:]`, `s1` is the
stream after the command line.  `make([]byte, bytes)` with a negative
count is a Go runtime fault, modelled as `.fault`. -/
def parseStorage (now : Int) (cmdName : String) (args : List String)
    (s1 : List Char) : Outcome (Request × List Char) :=
  match args with
  | a1 :: a2 :: a3 :: a4 :: tail =>
    match goParseInt64 a3 with
    | .error e => .err (.protocolError ("cannot read exptime " ++ e))
    | .ok exp0 =>
      let exptime := goNormalize now exp0
      match goAtoi a4 with
      | .error e => .err (.protocolError ("cannot read bytes " ++ e))
      | .ok nbytes =>
        let noreply := headIsNoreply tail
        if nbytes < 0 then .fault "makeslice: len out of range"
        else
          match readFull s1 nbytes.toNat with
          | .error e => .err e
          | .ok (data, s2) =>
            if data.length ≠ nbytes.toNat then
              .err (.protocolError ("Read only " ++ toString data.length ++
                " bytes of " ++ toString nbytes ++ " bytes of expected data"))
            else
              match readByte s2 with
              | .error e => .err e
              | .ok (c, s3) =>
                if c ≠ '\r' then .err (.protocolError "expected \\r")
                else
                  match readByte s3 with
                  | .error e => .err e
                  | .ok (c2, s4) =>
                    if c2 ≠ '\n' then .err (.protocolError "expected \\n")
                    else .ok ({ Request.zero with
                      Command := cmdName, Key := a1, Flags := a2,
                      Exptime := exptime, Data := data,
                      Noreply := noreply }, s4)
  | _ => .err (.protocolError ("too few params to command " ++ goQuote cmdName))

/-- The `"cas"` case of `ReadRequest`.  Identical to the storage case
except for the extra `cas unique` token — and for the byte-count parse
failure, which returns the raw `strconv` error instead of a
`NewError`. -/
def parseCas (now : Int) (args : List String)
    (s1 : List Char) : Outcome (Request × List Char) :=
  match args with
  | a1 :: a2 :: a3 :: a4 :: a5 :: tail =>
    match goParseInt64 a3 with
    | .error e => .err (.protocolError ("cannot read exptime " ++ e))
    | .ok exp0 =>
      let exptime := goNormalize now exp0
      match goAtoi a4 with
      | .error e => .err (.numErr e)
      | .ok nbytes =>
        let noreply := headIsNoreply tail
        if nbytes < 0 then .fault "makeslice: len out of range"
        else
          match readFull s1 nbytes.toNat with
          | .error e => .err e
          | .ok (data, s2) =>
            if data.length ≠ nbytes.toNat then
              .err (.protocolError ("Read only " ++ toString data.length ++
                " bytes of " ++ toString nbytes ++ " bytes of expected data"))
            else
              match readByte s2 with
              | .error e => .err e
              | .ok (c, s3) =>
                if c ≠ '\r' then .err (.protocolError "expected \\r")
                else
                  match readByte s3 with
                  | .error e => .err e
                  | .ok (c2, s4) =>
                    if c2 ≠ '\n' then .err (.protocolError "expected \\n")
                    else .ok ({ Request.zero with
                      Command := "cas", Key := a1, Flags := a2,
                      Exptime := exptime, Data := data, Cas := a5,
                      Noreply := noreply }, s4)
  | _ => .err (.protocolError ("too few params to command " ++ goQuote "cas"))

/-- The `"delete"` case: `req.Keys = arr[1:]`, and the no-reply flag is
set from `arr[2]` (the token right after the first key). -/
def parseDelete (args : List String)
    (s1 : List Char) : Outcome (Request × List Char) :=
  match args with
  | k :: more =>
    let noreply := headIsNoreply more
    .ok ({ Request.zero with
      Command := "delete", Keys := k :: more, Noreply := noreply }, s1)
  | [] => .err (.protocolError ("too few params to command " ++ goQuote "delete"))

/-- The `"get", "gets"` case: `req.Keys = arr[1:]`. -/
def parseGet (cmdName : String) (args : List String)
    (s1 : List Char) : Outcome (Request × List Char) :=
  match args with
  | k :: more =>
    .ok ({ Request.zero with Command := cmdName, Keys := k :: more }, s1)
  | [] => .err (.protocolError ("too few params to command " ++ goQuote cmdName))

/-- The `"incr", "decr"` case. -/
def parseIncrDecr (cmdName : String) (args : List String)
    (s1 : List Char) : Outcome (Request × List Char) :=
  match args with
  | a1 :: a2 :: tail =>
    match goParseInt64 a2 with
    | .error e => .err (.protocolError ("cannot read value " ++ e))
    | .ok v =>
      let noreply := headIsNoreply tail
      .ok ({ Request.zero with
        Command := cmdName, Key := a1, Value := v, Noreply := noreply }, s1)
  | _ => .err (.protocolError ("too few params to command " ++ goQuote cmdName))

/-- The `"touch"` case. -/
def parseTouch (now : Int) (args : List String)
    (s1 : List Char) : Outcome (Request × List Char) :=
  match args with
  | a1 :: a2 :: tail =>
    match goParseInt64 a2 with
    | .error e => .err (.protocolError ("cannot read exptime " ++ e))
    | .ok exp0 =>
      let exptime := goNormalize now exp0
      let noreply := headIsNoreply tail
      .ok ({ Request.zero with
        Command := "touch", Key := a1, Exptime := exptime,
        Noreply := noreply }, s1)
  | _ => .err (.protocolError ("too few params to command " ++ goQuote "touch"))

/-- The `"flush_all"` case: an optional delay parsed into `Exptime`
with no further rewrite. -/
def parseFlushAll (args : List String)
    (s1 : List Char) : Outcome (Request × List Char) :=
  match args with
  | [] => .ok ({ Request.zero with Command := "flush_all" }, s1)
  | d :: _ =>
    match goParseInt64 d with
    | .error e => .err (.protocolError ("cannot read delay " ++ e))
    | .ok v =>
      .ok ({ Request.zero with Command := "flush_all", Exptime := v }, s1)

/-- The `"stats"` case. -/
def parseStats (args : List String)
    (s1 : List Char) : Outcome (Request × List Char) :=
  match args with
  | [] => .ok ({ Request.zero with Command := "stats" }, s1)
  | _ => .ok ({ Request.zero with Command := "stats", Keys := args }, s1)

/-- The `switch arr[0]` dispatch of `ReadRequest`, applied to the
whitespace-split fields of the command line.  `s1` is the stream
positioned after that line. -/
def parseCommand (now : Int) (arr : List String)
    (s1 : List Char) : Outcome (Request × List Char) :=
  match arr with
  | [] => .err (.protocolError "empty line")
  | arr0 :: args =>
    match arr0 with
    | "set" | "add" | "replace" | "append" | "prepend" =>
      parseStorage now arr0 args s1
    | "cas" => parseCas now args s1
    | "delete" => parseDelete args s1
    | "get" | "gets" => parseGet arr0 args s1
    | "incr" | "decr" => parseIncrDecr arr0 args s1
    | "touch" => parseTouch now args s1
    | "flush_all" => parseFlushAll args s1
    | "version" | "quit" => .ok ({ Request.zero with Command := arr0 }, s1)
    | "stats" => parseStats args s1
    | _ => .err (.protocolError ("unknown command " ++ goQuote arr0))

/-- `ReadRequest`: read one line, split it into fields, dispatch on the
verb.  `now` is `time.Now().Unix()` at the moment of the call.  On
success the unconsumed remainder of the stream is returned alongside
the request. -/
def ReadRequest (now : Int) (stream : List Char) : Outcome (Request × List Char) :=
  match readLine stream with
  | .error e => .err e
  | .ok (lineBytes, s1) => parseCommand now (fields lineBytes) s1

/-- The `Value` struct of responses. -/
structure Value where
  Key : String
  Flags : String
  Data : List Char
  Cas : String
  deriving Repr, DecidableEq

/-- The `Response` struct. -/
structure Response where
  Response : String
  Values : List Value
  deriving Repr, DecidableEq

/-- Model of `Response.String()`: the buffer writes of the loop body, folded
left over the values, then the status line and `"\r\n"`. -/
def ResponseString (r : Response) : String :=
  (r.Values.foldl (fun b v =>
    b ++ "VALUE " ++ v.Key ++ " " ++ v.Flags ++ " " ++
      toString v.Data.length ++
      (if v.Cas ≠ "" then " " ++ v.Cas else "") ++ "\r\n" ++
      String.mk v.Data ++ "\r\n") "")
  ++ r.Response ++ "\r\n"

/-- Status text `RespErr`. -/
def RespErr : String := "ERROR "

/-- Status text `RespClientErr`. -/
def RespClientErr : String := "CLIENT_ERROR "

/-- Status text `RespServerErr`. -/
def RespServerErr : String := "SERVER_ERROR "

/-- A registered handler, as the pure content of the Go type
`func(ctx context.Context, req *Request, res *Response) error`: it
takes the request and the response it is given to populate and returns
the populated response together with an optional error description
(`err.Error()`). -/
def HandlerFunc : Type := Request → Response → Response × Option String

/-- Observables of one dispatch/reply step of `Server.handleConn`. -/
structure DispatchStep where
  res : Response
  wroteReply : Bool
  reply : String

/-- One iteration of the `Server.handleConn` loop after `ReadRequest`
succeeded with a non-`quit` command: `res := &Response{}`, look the
verb up in `s.methods`, run the handler (overwriting the status line
with `RespServerErr + err.Error()` when it fails) and write
`res.String()` unless `req.Noreply` — or, with no registered handler,
set the not-implemented status and write unconditionally. -/
def dispatchCommand (methods : String → Option HandlerFunc)
    (req : Request) : DispatchStep :=
  let res : Response := { Response := "", Values := [] }
  match methods req.Command with
  | some fn =>
    let out := fn req res
    let res2 := match out.2 with
      | some e => { out.1 with Response := RespServerErr ++ e }
      | none => out.1
    if req.Noreply = false then ⟨res2, true, ResponseString res2⟩
    else ⟨res2, false, ""⟩
  | none =>
    let res2 : Response := { res with
      Response := RespErr ++ req.Command ++ " not implemented" ++
        String.mk [Char.ofNat 39] }
    ⟨res2, true, ResponseString res2⟩

/-- The `Server` state that `Stop` touches: the atomic `stopped` flag,
whether `Start` bound a listener (`s.ln != nil`), the error that
closing that listener would return (`nil` in the normal case; closing
an already-closed listener errors), and the registered client
connections (`s.clients`), by identifier. -/
structure ServerState where
  stopped : Bool
  lnBound : Bool
  lnCloseErr : Option String
  clients : List Nat
  deriving Repr, DecidableEq

/-- Observables of one `Server.Stop` call. -/
structure StopOut where
  state : ServerState
  ret : Option String
  flippedFlag : Bool
  closedListener : Bool
  forceClosed : List Nat
  waited : Bool
  deriving Repr, DecidableEq

/-- Model of `Server.Stop`: compare-and-swap the `stopped` flag (a losing caller
returns `nil` at once); with no listener bound, report not-started and
return `nil`; otherwise close the listener (keeping its error as the
return value), force-close every registered connection (`drainConn`),
and poll the active set with a bounded timeout.  The sleeps and the
bounded poll have no effect on the modelled state; the poll is
recorded in `waited`. -/
def ServerStop (s : ServerState) : StopOut :=
  if s.stopped then ⟨s, none, false, false, [], false⟩
  else
    let s1 := { s with stopped := true }
    if ¬ s1.lnBound then ⟨s1, none, true, false, [], false⟩
    else ⟨s1, s.lnCloseErr, true, true, s.clients, true⟩

/-- The five storage verbs of the write family. -/
def isStorageVerb (v : String) : Bool :=
  v = "set" || v = "add" || v = "replace" || v = "append" || v = "prepend"

/-- Spec-side rendering of one Value, following the words of the spec: a
value-header line containing key, flags and payload length, plus the
CAS token if non-empty, terminated by CRLF; then the raw payload
bytes; then a CRLF terminator. -/
def specValueBlock (v : Value) : String :=
  "VALUE " ++ v.Key ++ " " ++ v.Flags ++ " " ++ toString v.Data.length ++
    (if v.Cas = "" then "" else " " ++ v.Cas) ++ "\r\n" ++
    String.mk v.Data ++ "\r\n"

/-- Spec-side rendering of a whole Result: the value blocks in list
order, then the status line followed by CRLF. -/
def specFormatResult (r : Response) : String :=
  String.join (r.Values.map specValueBlock) ++ r.Response ++ "\r\n"

/-- The payload discipline of a storage/`cas` parse, relative to the
post-line stream `s1` and the declared byte count `n`:
on success the payload has length exactly `n` and the stream continues
with `'\r'`, `'\n'` and exactly the returned remainder; a stream too
short for the payload is an I/O (transport) error; payload present but
either terminator byte wrong is a protocol error; stream ending before
either terminator byte is an I/O (transport) error. -/
def PayloadDiscipline (now : Int) (stream s1 : List Char) (n : Int) : Prop :=
  (∀ req rest, ReadRequest now stream = .ok (req, rest) →
    req.Data.length = n.toNat ∧ s1 = req.Data ++ '\r' :: '\n' :: rest) ∧
  (s1.length < n.toNat →
    ∃ d, ReadRequest now stream = .err (.ioError d)) ∧
  (∀ data c1 c2 s2, s1 = data ++ c1 :: c2 :: s2 → data.length = n.toNat →
    (c1 ≠ '\r' ∨ c2 ≠ '\n') →
    ∃ d, ReadRequest now stream = .err (.protocolError d)) ∧
  (s1.length = n.toNat →
    ∃ d, ReadRequest now stream = .err (.ioError d)) ∧
  (∀ data, s1 = data ++ ['\r'] → data.length = n.toNat →
    ∃ d, ReadRequest now stream = .err (.ioError d))

end mc

namespace mc

/-- A concrete handler that appends one Value, sets a status line and
then reports failure; used to exercise the dispatch step. -/
def demoFailingHandler : HandlerFunc := fun _ res =>
  ({ res with
     Response := "END",
     Values := [⟨"k", "0", ['a', 'b', 'c'], ""⟩] }, some "boom")

/-- A concrete handler registry with `demoFailingHandler` registered
under the verb `get`. -/
def demoMethods : String → Option HandlerFunc := fun cmd =>
  if cmd = "get" then some demoFailingHandler else none

/- Helper lemmas about the stream primitives and the parse branches. -/

lemma readFull_ok {s : List Char} {n : Nat} {d r : List Char}
    (h : readFull s n = .ok (d, r)) : d.length = n ∧ s = d ++ r := by
  unfold readFull at h
  split at h
  · cases h
  · rename_i hlen
    injection h with h
    injection h with h1 h2
    subst h1; subst h2
    refine ⟨?_, (List.take_append_drop n s).symm⟩
    simp [List.length_take]
    omega

lemma readByte_ok {s : List Char} {c : Char} {r : List Char}
    (h : readByte s = .ok (c, r)) : s = c :: r := by
  cases s with
  | nil => cases h
  | cons a t =>
    unfold readByte at h
    injection h with h
    injection h with h1 h2
    subst h1; subst h2; rfl

lemma parseCommand_storage {now : Int} {verb : String} {args : List String}
    {s1 : List Char} (hv : isStorageVerb verb = true) :
    parseCommand now (verb :: args) s1 = parseStorage now verb args s1 := by
  simp [isStorageVerb, decide_eq_true_eq] at hv
  rcases hv with (((h | h) | h) | h) | h <;> subst h <;> rfl

lemma parseCommand_cas {now : Int} {args : List String} {s1 : List Char} :
    parseCommand now ("cas" :: args) s1 = parseCas now args s1 := rfl

lemma parseCommand_touch {now : Int} {args : List String} {s1 : List Char} :
    parseCommand now ("touch" :: args) s1 = parseTouch now args s1 := rfl

lemma parseCommand_delete {now : Int} {args : List String} {s1 : List Char} :
    parseCommand now ("delete" :: args) s1 = parseDelete args s1 := rfl

lemma parseStorage_ok {now : Int} {cmd a1 a2 a3 a4 : String}
    {tail : List String} {s1 : List Char} {req : Request} {rest : List Char}
    (h : parseStorage now cmd (a1 :: a2 :: a3 :: a4 :: tail) s1 = .ok (req, rest)) :
    ∃ ev n data, goParseInt64 a3 = .ok ev ∧ goAtoi a4 = .ok n ∧ 0 ≤ n ∧
      data.length = n.toNat ∧ s1 = data ++ '\r' :: '\n' :: rest ∧
      req = { Request.zero with
        Command := cmd, Key := a1, Flags := a2,
        Exptime := goNormalize now ev, Data := data,
        Noreply := headIsNoreply tail } := by
  simp only [parseStorage] at h
  cases hexp : goParseInt64 a3 with
  | error e => rw [hexp] at h; simp at h
  | ok ev =>
    rw [hexp] at h
    cases hbytes : goAtoi a4 with
    | error e => rw [hbytes] at h; simp at h
    | ok n =>
      rw [hbytes] at h
      simp only [] at h
      by_cases hneg : n < 0
      · rw [if_pos hneg] at h; simp at h
      · rw [if_neg hneg] at h
        cases hfull : readFull s1 n.toNat with
        | error e => rw [hfull] at h; simp at h
        | ok p =>
          obtain ⟨data, s2⟩ := p
          rw [hfull] at h
          obtain ⟨hdl, hsplit⟩ := readFull_ok hfull
          simp only [hdl, ne_eq, not_true_eq_false, if_false] at h
          cases hb1 : readByte s2 with
          | error e => simp [hb1] at h
          | ok q =>
            obtain ⟨c, s3⟩ := q
            have hs2 := readByte_ok hb1
            by_cases hc1 : c = '\r'
            · subst hc1
              simp only [hb1] at h
              rw [if_neg (by simp)] at h
              cases hb2 : readByte s3 with
              | error e => simp [hb2] at h
              | ok q2 =>
                obtain ⟨c2, s4⟩ := q2
                have hs3 := readByte_ok hb2
                by_cases hc2 : c2 = '\n'
                · subst hc2
                  simp only [hb2] at h
                  rw [if_neg (by simp)] at h
                  simp only [Outcome.ok.injEq, Prod.mk.injEq] at h
                  obtain ⟨h1, h2⟩ := h
                  refine ⟨ev, n, data, rfl, rfl, by omega, hdl, ?_, h1.symm⟩
                  rw [hsplit, hs2, hs3, h2]
                · simp [hb2, hc2] at h
            · simp [hb1, hc1] at h

lemma parseCas_ok {now : Int} {a1 a2 a3 a4 a5 : String}
    {tail : List String} {s1 : List Char} {req : Request} {rest : List Char}
    (h : parseCas now (a1 :: a2 :: a3 :: a4 :: a5 :: tail) s1 = .ok (req, rest)) :
    ∃ ev n data, goParseInt64 a3 = .ok ev ∧ goAtoi a4 = .ok n ∧ 0 ≤ n ∧
      data.length = n.toNat ∧ s1 = data ++ '\r' :: '\n' :: rest ∧
      req = { Request.zero with
        Command := "cas", Key := a1, Flags := a2,
        Exptime := goNormalize now ev, Data := data, Cas := a5,
        Noreply := headIsNoreply tail } := by
  simp only [parseCas] at h
  cases hexp : goParseInt64 a3 with
  | error e => rw [hexp] at h; simp at h
  | ok ev =>
    rw [hexp] at h
    cases hbytes : goAtoi a4 with
    | error e => rw [hbytes] at h; simp at h
    | ok n =>
      rw [hbytes] at h
      simp only [] at h
      by_cases hneg : n < 0
      · rw [if_pos hneg] at h; simp at h
      · rw [if_neg hneg] at h
        cases hfull : readFull s1 n.toNat with
        | error e => rw [hfull] at h; simp at h
        | ok p =>
          obtain ⟨data, s2⟩ := p
          rw [hfull] at h
          obtain ⟨hdl, hsplit⟩ := readFull_ok hfull
          simp only [hdl, ne_eq, not_true_eq_false, if_false] at h
          cases hb1 : readByte s2 with
          | error e => simp [hb1] at h
          | ok q =>
            obtain ⟨c, s3⟩ := q
            have hs2 := readByte_ok hb1
            by_cases hc1 : c = '\r'
            · subst hc1
              simp only [hb1] at h
              rw [if_neg (by simp)] at h
              cases hb2 : readByte s3 with
              | error e => simp [hb2] at h
              | ok q2 =>
                obtain ⟨c2, s4⟩ := q2
                have hs3 := readByte_ok hb2
                by_cases hc2 : c2 = '\n'
                · subst hc2
                  simp only [hb2] at h
                  rw [if_neg (by simp)] at h
                  simp only [Outcome.ok.injEq, Prod.mk.injEq] at h
                  obtain ⟨h1, h2⟩ := h
                  refine ⟨ev, n, data, rfl, rfl, by omega, hdl, ?_, h1.symm⟩
                  rw [hsplit, hs2, hs3, h2]
                · simp [hb2, hc2] at h
            · simp [hb1, hc1] at h

lemma parseTouch_ok {now : Int} {a1 a2 : String}
    {tail : List String} {s1 : List Char} {req : Request} {rest : List Char}
    (h : parseTouch now (a1 :: a2 :: tail) s1 = .ok (req, rest)) :
    ∃ ev, goParseInt64 a2 = .ok ev ∧ rest = s1 ∧
      req = { Request.zero with
        Command := "touch", Key := a1,
        Exptime := goNormalize now ev,
        Noreply := headIsNoreply tail } := by
  simp only [parseTouch] at h
  cases hexp : goParseInt64 a2 with
  | error e => rw [hexp] at h; simp at h
  | ok ev =>
    rw [hexp] at h
    simp only [Outcome.ok.injEq, Prod.mk.injEq] at h
    obtain ⟨h1, h2⟩ := h
    exact ⟨ev, rfl, h2.symm, h1.symm⟩

lemma readFull_shape {data ext : List Char} :
    readFull (data ++ ext) data.length = .ok (data, ext) := by
  unfold readFull
  rw [if_neg (by simp)]
  rw [List.take_left, List.drop_left]

lemma parseStorage_short {now : Int} {cmd a1 a2 a3 a4 : String}
    {tail : List String} {s1 : List Char} {ev n : Int}
    (hexp : goParseInt64 a3 = .ok ev) (hbytes : goAtoi a4 = .ok n)
    (hn : ¬ n < 0) (hshort : s1.length < n.toNat) :
    ∃ d, parseStorage now cmd (a1 :: a2 :: a3 :: a4 :: tail) s1 =
      .err (.ioError d) := by
  have hf : readFull s1 n.toNat =
      .error (.ioError (if s1.isEmpty then "EOF" else "unexpected EOF")) := by
    unfold readFull; rw [if_pos hshort]
  refine ⟨if s1.isEmpty then "EOF" else "unexpected EOF", ?_⟩
  simp only [parseStorage, hexp, hbytes]
  simp [hn, hf]

lemma parseStorage_badTerm {now : Int} {cmd a1 a2 a3 a4 : String}
    {tail : List String} {s1 data s2 : List Char} {c1 c2 : Char} {ev n : Int}
    (hexp : goParseInt64 a3 = .ok ev) (hbytes : goAtoi a4 = .ok n)
    (hn : ¬ n < 0) (hs : s1 = data ++ c1 :: c2 :: s2)
    (hdl : data.length = n.toNat) (hbad : c1 ≠ '\r' ∨ c2 ≠ '\n') :
    ∃ d, parseStorage now cmd (a1 :: a2 :: a3 :: a4 :: tail) s1 =
      .err (.protocolError d) := by
  have hf : readFull s1 n.toNat = .ok (data, c1 :: c2 :: s2) := by
    rw [hs, ← hdl]; exact readFull_shape
  by_cases hc1 : c1 = '\r'
  · rcases hbad with hb | hb
    · exact absurd hc1 hb
    · refine ⟨"expected \\n", ?_⟩
      subst hc1
      simp only [parseStorage, hexp, hbytes]
      simp [hn, hf, hdl, readByte, hb]
  · refine ⟨"expected \\r", ?_⟩
    simp only [parseStorage, hexp, hbytes]
    simp [hn, hf, hdl, readByte, hc1]

lemma parseStorage_eofTerm1 {now : Int} {cmd a1 a2 a3 a4 : String}
    {tail : List String} {s1 : List Char} {ev n : Int}
    (hexp : goParseInt64 a3 = .ok ev) (hbytes : goAtoi a4 = .ok n)
    (hn : ¬ n < 0) (hlen : s1.length = n.toNat) :
    ∃ d, parseStorage now cmd (a1 :: a2 :: a3 :: a4 :: tail) s1 =
      .err (.ioError d) := by
  have hf : readFull s1 n.toNat = .ok (s1, []) := by
    have := @readFull_shape s1 []
    rw [List.append_nil] at this
    rw [← hlen]; exact this
  refine ⟨"EOF", ?_⟩
  simp only [parseStorage, hexp, hbytes]
  simp [hn, hf, hlen, readByte]

lemma parseStorage_eofTerm2 {now : Int} {cmd a1 a2 a3 a4 : String}
    {tail : List String} {s1 data : List Char} {ev n : Int}
    (hexp : goParseInt64 a3 = .ok ev) (hbytes : goAtoi a4 = .ok n)
    (hn : ¬ n < 0) (hs : s1 = data ++ ['\r']) (hdl : data.length = n.toNat) :
    ∃ d, parseStorage now cmd (a1 :: a2 :: a3 :: a4 :: tail) s1 =
      .err (.ioError d) := by
  have hf : readFull s1 n.toNat = .ok (data, ['\r']) := by
    rw [hs, ← hdl]; exact readFull_shape
  refine ⟨"EOF", ?_⟩
  simp only [parseStorage, hexp, hbytes]
  simp [hn, hf, hdl, readByte]

lemma parseCas_short {now : Int} {a1 a2 a3 a4 a5 : String}
    {tail : List String} {s1 : List Char} {ev n : Int}
    (hexp : goParseInt64 a3 = .ok ev) (hbytes : goAtoi a4 = .ok n)
    (hn : ¬ n < 0) (hshort : s1.length < n.toNat) :
    ∃ d, parseCas now (a1 :: a2 :: a3 :: a4 :: a5 :: tail) s1 =
      .err (.ioError d) := by
  have hf : readFull s1 n.toNat =
      .error (.ioError (if s1.isEmpty then "EOF" else "unexpected EOF")) := by
    unfold readFull; rw [if_pos hshort]
  refine ⟨if s1.isEmpty then "EOF" else "unexpected EOF", ?_⟩
  simp only [parseCas, hexp, hbytes]
  simp [hn, hf]

lemma parseCas_badTerm {now : Int} {a1 a2 a3 a4 a5 : String}
    {tail : List String} {s1 data s2 : List Char} {c1 c2 : Char} {ev n : Int}
    (hexp : goParseInt64 a3 = .ok ev) (hbytes : goAtoi a4 = .ok n)
    (hn : ¬ n < 0) (hs : s1 = data ++ c1 :: c2 :: s2)
    (hdl : data.length = n.toNat) (hbad : c1 ≠ '\r' ∨ c2 ≠ '\n') :
    ∃ d, parseCas now (a1 :: a2 :: a3 :: a4 :: a5 :: tail) s1 =
      .err (.protocolError d) := by
  have hf : readFull s1 n.toNat = .ok (data, c1 :: c2 :: s2) := by
    rw [hs, ← hdl]; exact readFull_shape
  by_cases hc1 : c1 = '\r'
  · rcases hbad with hb | hb
    · exact absurd hc1 hb
    · refine ⟨"expected \\n", ?_⟩
      subst hc1
      simp only [parseCas, hexp, hbytes]
      simp [hn, hf, hdl, readByte, hb]
  · refine ⟨"expected \\r", ?_⟩
    simp only [parseCas, hexp, hbytes]
    simp [hn, hf, hdl, readByte, hc1]

lemma parseCas_eofTerm1 {now : Int} {a1 a2 a3 a4 a5 : String}
    {tail : List String} {s1 : List Char} {ev n : Int}
    (hexp : goParseInt64 a3 = .ok ev) (hbytes : goAtoi a4 = .ok n)
    (hn : ¬ n < 0) (hlen : s1.length = n.toNat) :
    ∃ d, parseCas now (a1 :: a2 :: a3 :: a4 :: a5 :: tail) s1 =
      .err (.ioError d) := by
  have hf : readFull s1 n.toNat = .ok (s1, []) := by
    have := @readFull_shape s1 []
    rw [List.append_nil] at this
    rw [← hlen]; exact this
  refine ⟨"EOF", ?_⟩
  simp only [parseCas, hexp, hbytes]
  simp [hn, hf, hlen, readByte]

lemma parseCas_eofTerm2 {now : Int} {a1 a2 a3 a4 a5 : String}
    {tail : List String} {s1 data : List Char} {ev n : Int}
    (hexp : goParseInt64 a3 = .ok ev) (hbytes : goAtoi a4 = .ok n)
    (hn : ¬ n < 0) (hs : s1 = data ++ ['\r']) (hdl : data.length = n.toNat) :
    ∃ d, parseCas now (a1 :: a2 :: a3 :: a4 :: a5 :: tail) s1 =
      .err (.ioError d) := by
  have hf : readFull s1 n.toNat = .ok (data, ['\r']) := by
    rw [hs, ← hdl]; exact readFull_shape
  refine ⟨"EOF", ?_⟩
  simp only [parseCas, hexp, hbytes]
  simp [hn, hf, hdl, readByte]

end mc

namespace mc

/- Formatter helper lemmas. -/

lemma valueFold_eq (b : String) (v : Value) :
    b ++ "VALUE " ++ v.Key ++ " " ++ v.Flags ++ " " ++
      toString v.Data.length ++
      (if v.Cas ≠ "" then " " ++ v.Cas else "") ++ "\r\n" ++
      String.mk v.Data ++ "\r\n" = b ++ specValueBlock v := by
  unfold specValueBlock
  by_cases h : v.Cas = "" <;> simp [h, String.append_assoc]

lemma stringFoldl_init (l : List String) :
    ∀ b : String, l.foldl (· ++ ·) b = b ++ String.join l := by
  induction l with
  | nil => intro b; simp [String.join]
  | cons s t ih =>
    intro b
    have hj : String.join (s :: t) = s ++ String.join t := by
      simp only [String.join, List.foldl_cons]
      have := ih ("" ++ s)
      simp only [String.join] at this
      rw [this, String.empty_append]
    rw [List.foldl_cons, ih, hj, String.append_assoc]

lemma foldl_values_eq (l : List Value) :
    ∀ b : String,
      l.foldl (fun b v =>
        b ++ "VALUE " ++ v.Key ++ " " ++ v.Flags ++ " " ++
          toString v.Data.length ++
          (if v.Cas ≠ "" then " " ++ v.Cas else "") ++ "\r\n" ++
          String.mk v.Data ++ "\r\n") b =
      b ++ String.join (l.map specValueBlock) := by
  induction l with
  | nil => intro b; simp [String.join]
  | cons v t ih =>
    intro b
    simp only [List.foldl_cons, List.map_cons]
    rw [valueFold_eq, ih]
    have hj : String.join (specValueBlock v :: List.map specValueBlock t) =
        specValueBlock v ++ String.join (List.map specValueBlock t) := by
      simp only [String.join, List.foldl_cons]
      have := stringFoldl_init (List.map specValueBlock t) ("" ++ specValueBlock v)
      simp only [String.join] at this
      rw [this, String.empty_append]
    rw [hj, String.append_assoc]

/-- C1: for a storage-family or `cas` command line whose exptime and
byte-count fields parse (byte count non-negative), the parse of the
whole request obeys the payload discipline: on success the payload has
exactly the declared length and the two stream bytes after it were
`'\r'` then `'\n'`; a stream too short for the payload is an I/O
(transport) error; a present payload followed by a wrong terminator
byte is a protocol error; a stream ending inside the terminator is an
I/O (transport) error.  In particular no `Request` with a short or
long payload is ever returned. -/
theorem ReadRequest_payload_discipline
    (now : Int) (stream line s1 : List Char)
    (verb a1 a2 a3 a4 : String) (tail : List String) (ev n : Int)
    (hline : readLine stream = .ok (line, s1))
    (hfields : fields line = verb :: a1 :: a2 :: a3 :: a4 :: tail)
    (hverb : isStorageVerb verb = true ∨ (verb = "cas" ∧ tail ≠ []))
    (hexp : goParseInt64 a3 = .ok ev)
    (hbytes : goAtoi a4 = .ok n)
    (hn : 0 ≤ n) :
    PayloadDiscipline now stream s1 n := by
  have hRR : ReadRequest now stream = parseCommand now (fields line) s1 := by
    simp only [ReadRequest, hline]
  rw [hfields] at hRR
  have hn' : ¬ n < 0 := by omega
  rcases hverb with hsv | ⟨hcas, htail⟩
  · rw [parseCommand_storage hsv] at hRR
    refine ⟨?_, ?_, ?_, ?_, ?_⟩
    · intro req rest hok
      rw [hRR] at hok
      obtain ⟨ev2, n2, data, hexp2, hbytes2, hn2, hdl, hsplit, hreq⟩ :=
        parseStorage_ok hok
      rw [hbytes] at hbytes2
      injection hbytes2 with hnn
      subst hnn
      rw [hreq]
      exact ⟨hdl, hsplit⟩
    · intro hshort
      obtain ⟨d, hd⟩ := parseStorage_short hexp hbytes hn' hshort
      exact ⟨d, by rw [hRR]; exact hd⟩
    · intro data c1 c2 s2 hs hdl hbad
      obtain ⟨d, hd⟩ := parseStorage_badTerm hexp hbytes hn' hs hdl hbad
      exact ⟨d, by rw [hRR]; exact hd⟩
    · intro hlen
      obtain ⟨d, hd⟩ := parseStorage_eofTerm1 hexp hbytes hn' hlen
      exact ⟨d, by rw [hRR]; exact hd⟩
    · intro data hs hdl
      obtain ⟨d, hd⟩ := parseStorage_eofTerm2 hexp hbytes hn' hs hdl
      exact ⟨d, by rw [hRR]; exact hd⟩
  · subst hcas
    cases tail with
    | nil => exact absurd rfl htail
    | cons a5 tail2 =>
      rw [parseCommand_cas] at hRR
      refine ⟨?_, ?_, ?_, ?_, ?_⟩
      · intro req rest hok
        rw [hRR] at hok
        obtain ⟨ev2, n2, data, hexp2, hbytes2, hn2, hdl, hsplit, hreq⟩ :=
          parseCas_ok hok
        rw [hbytes] at hbytes2
        injection hbytes2 with hnn
        subst hnn
        rw [hreq]
        exact ⟨hdl, hsplit⟩
      · intro hshort
        obtain ⟨d, hd⟩ := parseCas_short hexp hbytes hn' hshort
        exact ⟨d, by rw [hRR]; exact hd⟩
      · intro data c1 c2 s2 hs hdl hbad
        obtain ⟨d, hd⟩ := parseCas_badTerm hexp hbytes hn' hs hdl hbad
        exact ⟨d, by rw [hRR]; exact hd⟩
      · intro hlen
        obtain ⟨d, hd⟩ := parseCas_eofTerm1 hexp hbytes hn' hlen
        exact ⟨d, by rw [hRR]; exact hd⟩
      · intro data hs hdl
        obtain ⟨d, hd⟩ := parseCas_eofTerm2 hexp hbytes hn' hs hdl
        exact ⟨d, by rw [hRR]; exact hd⟩

/-- Witness for C1: the payload discipline instantiated at the
concrete request `set k 0 0 3` with payload `abc`. -/
theorem ReadRequest_payload_discipline_witness :
    PayloadDiscipline 7 ("set k 0 0 3\r\nabc\r\n".toList) ("abc\r\n".toList) 3 :=
  ReadRequest_payload_discipline 7 ("set k 0 0 3\r\nabc\r\n".toList)
    ("set k 0 0 3".toList) ("abc\r\n".toList) "set" "k" "0" "0" "3" [] 0 3
    rfl rfl (Or.inl rfl) rfl rfl (by decide)

/-- C2: the code does not normalize a positive relative exptime to
`now + exptime`.  At current time 1760140800, `set k 0 100 1` yields
`Exptime = 101` (the code adds `Unix()/1e9 = 1`, not the current time),
and `flush_all 100` applies no normalization at all (`Exptime = 100`),
although `0 < 100 ≤ RealtimeMaxDelta`. -/
theorem exptime_normalization_divergence :
    ReadRequest 1760140800 ("set k 0 100 1\r\nA\r\n".toList) =
      .ok ({ Request.zero with
        Command := "set", Key := "k", Flags := "0",
        Exptime := 101, Data := ['A'] }, []) ∧
    (101 : Int) ≠ 1760140800 + 100 ∧
    ReadRequest 1760140800 ("flush_all 100\r\n".toList) =
      .ok ({ Request.zero with Command := "flush_all", Exptime := 100 }, []) ∧
    (100 : Int) ≠ 1760140800 + 100 ∧ (0 : Int) < 100 ∧
    (100 : Int) ≤ RealtimeMaxDelta :=
  ⟨rfl, by decide, rfl, by decide, by decide, by decide⟩

/-- C3: a negative declared byte-count is not rejected with a
`ProtocolError` — it reaches `make([]byte, bytes)` and faults at run
time; and in the `cas` branch a non-numeric byte-count returns the raw
`strconv` error rather than a `ProtocolError`.  Only the storage
branch wraps the byte-count parse failure in a `ProtocolError`. -/
theorem bytecount_fault_and_error_kinds :
    ReadRequest 0 ("set a 0 0 -1\r\n".toList) =
      .fault "makeslice: len out of range" ∧
    ReadRequest 0 ("cas k 0 0 x u\r\n".toList) =
      .err (.numErr "strconv.Atoi: parsing \"x\": invalid syntax") ∧
    ReadRequest 0 ("set a 0 0 x\r\n".toList) =
      .err (.protocolError
        "cannot read bytes strconv.Atoi: parsing \"x\": invalid syntax") :=
  ⟨rfl, rfl, rfl⟩

/-- C4: formatting a `Response` is total and produces, for each Value
in list order, the header `VALUE <key> <flags> <length>` with the CAS
token appended only when non-empty, then CRLF, the raw payload, CRLF,
and after all Values the status line plus CRLF; the empty `Response`
formats to exactly CRLF, and the two-Value spec scenario formats as
stated. -/
theorem ResponseString_matches_spec_format :
    (∀ r : Response, ResponseString r = specFormatResult r) ∧
    ResponseString ⟨"", []⟩ = "\r\n" ∧
    ResponseString ⟨"END",
      [⟨"k1", "f1", "123".toList, ""⟩, ⟨"k2", "f2", "456".toList, ""⟩]⟩ =
      "VALUE k1 f1 3\r\n123\r\nVALUE k2 f2 3\r\n456\r\nEND\r\n" := by
  refine ⟨?_, rfl, rfl⟩
  intro r
  unfold ResponseString specFormatResult
  rw [foldl_values_eq]
  simp

/-- Witness for C4: the formatter/spec agreement evaluated at a
concrete `Response` carrying a non-empty CAS token. -/
theorem ResponseString_matches_spec_format_witness :
    ResponseString ⟨"END", [⟨"a", "b", ['c'], "t9"⟩]⟩ =
      specFormatResult ⟨"END", [⟨"a", "b", ['c'], "t9"⟩]⟩ :=
  ResponseString_matches_spec_format.1 ⟨"END", [⟨"a", "b", ['c'], "t9"⟩]⟩

/-- C5: the three spec scenarios parse to a `Request` whose fields
exactly match the input tokens, for every value of the current time:
`set KEY 0 0 10` + payload, `get a bb c`, and `cas KEY 0 0 10 UNIQ` +
payload (CAS token stored verbatim). -/
theorem ReadRequest_scenario_fields_match (now : Int) :
    ReadRequest now ("set KEY 0 0 10\r\n1234567890\r\n".toList) =
      .ok ({ Request.zero with
        Command := "set", Key := "KEY", Flags := "0",
        Exptime := 0, Data := "1234567890".toList }, []) ∧
    ReadRequest now ("get a bb c\r\n".toList) =
      .ok ({ Request.zero with Command := "get", Keys := ["a", "bb", "c"] }, []) ∧
    ReadRequest now ("cas KEY 0 0 10 UNIQ\r\n1234567890\r\n".toList) =
      .ok ({ Request.zero with
        Command := "cas", Key := "KEY", Flags := "0",
        Exptime := 0, Cas := "UNIQ", Data := "1234567890".toList }, []) :=
  ⟨rfl, rfl, rfl⟩

/-- Witness for C5: the `set` scenario at current time 0. -/
theorem ReadRequest_scenario_fields_match_witness :
    ReadRequest 0 ("set KEY 0 0 10\r\n1234567890\r\n".toList) =
      .ok ({ Request.zero with
        Command := "set", Key := "KEY", Flags := "0",
        Exptime := 0, Data := "1234567890".toList }, []) :=
  (ReadRequest_scenario_fields_match 0).1

end mc

namespace mc

/-- Counterexample to C6: a parsed command with the no-reply flag set
but no registered handler still gets the not-implemented reply written
— the reply is not suppressed. -/
theorem dispatch_noreply_suppression_cex :
    (dispatchCommand (fun _ => none)
      { Request.zero with
        Command := "get", Keys := ["k"], Noreply := true }).wroteReply = true ∧
    ({ Request.zero with
       Command := "get", Keys := ["k"], Noreply := true } : Request).Noreply = true :=
  ⟨rfl, rfl⟩

/-- C6 (amended): in the dispatch/reply step for a successfully parsed
non-quit command, a reply is written unless a handler is registered
for the verb and the no-reply flag is set; with no registered handler
the not-implemented reply is written unconditionally, even for
no-reply commands. -/
theorem dispatch_wroteReply_iff
    (methods : String → Option HandlerFunc) (req : Request) :
    (dispatchCommand methods req).wroteReply =
      !((methods req.Command).isSome && req.Noreply) := by
  unfold dispatchCommand
  cases h : methods req.Command with
  | none => simp
  | some fn =>
    cases hf : fn req { Response := "", Values := [] } with
    | mk res1 e =>
      cases e <;> cases hnr : req.Noreply <;> simp [hnr]

/-- Witness for C6 (amended): with `demoMethods` registered for `get`
and the no-reply flag clear, the reply is written. -/
theorem dispatch_wroteReply_iff_witness :
    (dispatchCommand demoMethods
      { Request.zero with Command := "get", Keys := ["k"] }).wroteReply = true :=
  dispatch_wroteReply_iff demoMethods
    { Request.zero with Command := "get", Keys := ["k"] }

/-- C7: when the registered handler reports a failure, only the status
line of the populated `Response` is replaced with
`SERVER_ERROR <description>`; the Values the handler appended are kept
unchanged, in order, and (unless no-reply) the serialized reply is the
formatting of exactly that `Response`. -/
theorem handler_failure_keeps_values
    (methods : String → Option HandlerFunc) (req : Request)
    (fn : HandlerFunc) (res1 : Response) (e : String)
    (hm : methods req.Command = some fn)
    (hf : fn req { Response := "", Values := [] } = (res1, some e)) :
    (dispatchCommand methods req).res =
      { res1 with Response := RespServerErr ++ e } ∧
    (req.Noreply = false →
      (dispatchCommand methods req).wroteReply = true ∧
      (dispatchCommand methods req).reply =
        ResponseString { res1 with Response := RespServerErr ++ e }) := by
  simp only [dispatchCommand, hm, hf]
  cases hnr : req.Noreply <;> simp [hnr]

/-- Witness for C7: `demoFailingHandler` appends one Value and fails
with description `boom`; the Value survives, only the status line is
replaced, and the reply serializes it. -/
theorem handler_failure_keeps_values_witness :
    (dispatchCommand demoMethods
      { Request.zero with Command := "get", Keys := ["k"] }).res =
      { Response := RespServerErr ++ "boom",
        Values := [⟨"k", "0", ['a', 'b', 'c'], ""⟩] } ∧
    (({ Request.zero with Command := "get", Keys := ["k"] } : Request).Noreply = false →
      (dispatchCommand demoMethods
        { Request.zero with Command := "get", Keys := ["k"] }).wroteReply = true ∧
      (dispatchCommand demoMethods
        { Request.zero with Command := "get", Keys := ["k"] }).reply =
        ResponseString
          { Response := RespServerErr ++ "boom",
            Values := [⟨"k", "0", ['a', 'b', 'c'], ""⟩] }) :=
  handler_failure_keeps_values demoMethods
    { Request.zero with Command := "get", Keys := ["k"] }
    demoFailingHandler
    { Response := "END", Values := [⟨"k", "0", ['a', 'b', 'c'], ""⟩] }
    "boom" rfl rfl

/-- Counterexample to C8: in `delete a b noreply` the final token is
the literal `noreply`, yet the parsed request does not have the
no-reply flag set (the code tests the third token, not the last). -/
theorem delete_final_noreply_cex :
    ReadRequest 0 ("delete a b noreply\r\n".toList) =
      .ok ({ Request.zero with
        Command := "delete", Keys := ["a", "b", "noreply"] }, []) ∧
    (["a", "b", "noreply"].getLast? = some "noreply") ∧
    ({ Request.zero with
        Command := "delete", Keys := ["a", "b", "noreply"] } : Request).Noreply = false :=
  ⟨rfl, rfl, rfl⟩

/-- C8 (amended): every `delete` line with at least one key parses,
all tokens after the verb are stored as the key list (including a
`noreply` literal), and the no-reply flag is set exactly when the
token right after the first key is the literal `noreply`. -/
theorem ReadRequest_delete_keys_and_noreply
    (now : Int) (stream line s1 : List Char)
    (k : String) (more : List String)
    (hline : readLine stream = .ok (line, s1))
    (hfields : fields line = "delete" :: k :: more) :
    ReadRequest now stream =
      .ok ({ Request.zero with
        Command := "delete", Keys := k :: more,
        Noreply := headIsNoreply more }, s1) := by
  have hRR : ReadRequest now stream = parseCommand now (fields line) s1 := by
    simp only [ReadRequest, hline]
  rw [hRR, hfields, parseCommand_delete]
  rfl

/-- Witness for C8 (amended): `delete a noreply` sets the no-reply
flag and keeps both tokens as keys. -/
theorem ReadRequest_delete_keys_and_noreply_witness :
    ReadRequest 0 ("delete a noreply\r\n".toList) =
      .ok ({ Request.zero with
        Command := "delete", Keys := ["a", "noreply"], Noreply := true }, []) :=
  ReadRequest_delete_keys_and_noreply 0 ("delete a noreply\r\n".toList)
    ("delete a noreply".toList) [] "a" ["noreply"] rfl rfl

/-- Counterexample to C9: on a server where closing the listener
errors (for example because the accept loop already closed it on its
way out), the first `Stop` call returns that error, not success. -/
theorem ServerStop_first_call_error_cex :
    (ServerStop ⟨false, true, some "use of closed network connection", [0]⟩).ret
      ≠ none ∧
    (⟨false, true, some "use of closed network connection", [0]⟩ : ServerState).stopped
      = false := by
  constructor
  · simp [ServerStop]
  · rfl

/-- C9 (amended): a second `Stop` call is always a no-op returning
success — it does not flip the flag, close the listener or force-close
connections; the first call flips the flag, and when a listener is
bound it closes it, force-closes every registered connection and
returns the result of closing the listener (success whenever that
close succeeds, and also when the server never started). -/
theorem ServerStop_idempotent_shutdown_once (s : ServerState) :
    ((ServerStop (ServerStop s).state).ret = none ∧
     (ServerStop (ServerStop s).state).flippedFlag = false ∧
     (ServerStop (ServerStop s).state).closedListener = false ∧
     (ServerStop (ServerStop s).state).forceClosed = []) ∧
    (ServerStop s).state.stopped = true ∧
    (s.stopped = false → (ServerStop s).flippedFlag = true) ∧
    (s.stopped = false → s.lnBound = true →
      (ServerStop s).closedListener = true ∧
      (ServerStop s).forceClosed = s.clients ∧
      (ServerStop s).ret = s.lnCloseErr) ∧
    (s.stopped = false → s.lnBound = false → (ServerStop s).ret = none) ∧
    (s.stopped = true → ServerStop s = ⟨s, none, false, false, [], false⟩) := by
  obtain ⟨st, ln, ce, cl⟩ := s
  cases st <;> cases ln <;> simp [ServerStop]

/-- Witness for C9 (amended): a running server with a healthy listener
and two registered connections: the first call does the shutdown and
returns success, the second returns success doing nothing. -/
theorem ServerStop_idempotent_shutdown_once_witness :
    (ServerStop (ServerStop ⟨false, true, none, [3, 4]⟩).state).ret = none ∧
    (ServerStop ⟨false, true, none, [3, 4]⟩).flippedFlag = true ∧
    (ServerStop ⟨false, true, none, [3, 4]⟩).closedListener = true ∧
    (ServerStop ⟨false, true, none, [3, 4]⟩).forceClosed = [3, 4] ∧
    (ServerStop ⟨false, true, none, [3, 4]⟩).ret = none := by
  have t := ServerStop_idempotent_shutdown_once ⟨false, true, none, [3, 4]⟩
  exact ⟨t.1.1, t.2.2.1 rfl, (t.2.2.2.1 rfl rfl).1, (t.2.2.2.1 rfl rfl).2.1,
    (t.2.2.2.1 rfl rfl).2.2⟩

/-- C10: when the exptime token of a storage-family, `cas` or `touch`
line parses to a strictly negative 64-bit value, any successful parse
of the request stores that negative value unchanged — the
normalization rewrite applies only to strictly positive values. -/
theorem ReadRequest_negative_exptime_unchanged
    (now : Int) (stream line s1 : List Char)
    (hline : readLine stream = .ok (line, s1)) :
    (∀ (verb a1 a2 a3 a4 : String) (tail : List String) (v : Int)
        (req : Request) (rest : List Char),
      fields line = verb :: a1 :: a2 :: a3 :: a4 :: tail →
      (isStorageVerb verb = true ∨ verb = "cas") →
      goParseInt64 a3 = .ok v → v < 0 →
      ReadRequest now stream = .ok (req, rest) → req.Exptime = v) ∧
    (∀ (a1 a2 : String) (tail : List String) (v : Int)
        (req : Request) (rest : List Char),
      fields line = "touch" :: a1 :: a2 :: tail →
      goParseInt64 a2 = .ok v → v < 0 →
      ReadRequest now stream = .ok (req, rest) → req.Exptime = v) := by
  have hRR : ReadRequest now stream = parseCommand now (fields line) s1 := by
    simp only [ReadRequest, hline]
  constructor
  · intro verb a1 a2 a3 a4 tail v req rest hfields hverb hv hneg hok
    rw [hRR, hfields] at hok
    have hgn : goNormalize now v = v := by
      unfold goNormalize
      rw [if_neg (by omega)]
    rcases hverb with hsv | hcas
    · rw [parseCommand_storage hsv] at hok
      obtain ⟨ev2, n2, data, hexp2, _, _, _, _, hreq⟩ := parseStorage_ok hok
      rw [hv] at hexp2
      injection hexp2 with hvv
      subst hvv
      rw [hreq]
      exact hgn
    · subst hcas
      rw [parseCommand_cas] at hok
      cases tail with
      | nil => simp [parseCas] at hok
      | cons a5 tail2 =>
        obtain ⟨ev2, n2, data, hexp2, _, _, _, _, hreq⟩ := parseCas_ok hok
        rw [hv] at hexp2
        injection hexp2 with hvv
        subst hvv
        rw [hreq]
        exact hgn
  · intro a1 a2 tail v req rest hfields hv hneg hok
    rw [hRR, hfields, parseCommand_touch] at hok
    obtain ⟨ev2, hexp2, _, hreq⟩ := parseTouch_ok hok
    rw [hv] at hexp2
    injection hexp2 with hvv
    subst hvv
    rw [hreq]
    unfold goNormalize
    rw [if_neg (by omega)]

/-- Witness for C10: `set k 0 -5 1` with payload `A` parses
successfully at current time 7 and keeps `Exptime = -5`. -/
theorem ReadRequest_negative_exptime_unchanged_witness :
    ({ Request.zero with
      Command := "set", Key := "k", Flags := "0", Exptime := -5,
      Data := ['A'] } : Request).Exptime = -5 :=
  (ReadRequest_negative_exptime_unchanged 7 ("set k 0 -5 1\r\nA\r\n".toList)
      ("set k 0 -5 1".toList) ("A\r\n".toList) rfl).1
    "set" "k" "0" "-5" "1" [] (-5)
    { Request.zero with
      Command := "set", Key := "k", Flags := "0", Exptime := -5, Data := ['A'] }
    [] rfl (Or.inl rfl) rfl (by decide) rfl

end mc
